import Mathlib

/-!
Verification of the waypoint-generation core of `src/app.py`
(grass-cutting sweep tracks, striping patterns, FIFA pitch markings,
and the approximate geodetic/planar coordinate conversion).

Floating-point arithmetic of the Python source is modelled over `ℝ`
(and `math.cos`/`math.sin` by `Real.cos`/`Real.sin`); the external
shapely geometry kernel (`LineString.intersection(Polygon)` and
`parallel_offset`) is passed as an explicit function parameter, except
where claims about axis-aligned rectangles need its concrete behaviour,
for which `rectChord` below models it.
-/

namespace SoccerApp

noncomputable section

/-- Python `math.radians`: degrees to radians. -/
def radians (d : ℝ) : ℝ := d * Real.pi / 180

/-- Earth radius in meters, `R = 6371000` in `src/app.py`. -/
def earthR : ℝ := 6371000

/-- Source `latlon_to_xy(latlon, origin)`, `src/app.py` lines 12-18:
`x = (lon - lon0) * cos(radians(lat0)) * R`, `y = (lat - lat0) * R`. -/
def latlon_to_xy (latlon origin : ℝ × ℝ) : ℝ × ℝ :=
  ((latlon.2 - origin.2) * Real.cos (radians origin.1) * earthR,
   (latlon.1 - origin.1) * earthR)

/-- Source `xy_to_latlon(xy, origin)`, `src/app.py` lines 20-26:
`lat = y/R + lat0`, `lon = x/(R * cos(radians(lat0))) + lon0`. -/
def xy_to_latlon (xy origin : ℝ × ℝ) : ℝ × ℝ :=
  (xy.2 / earthR + origin.1,
   xy.1 / (earthR * Real.cos (radians origin.1)) + origin.2)

/-- Iteration count of the sweep loop `y = miny; while y <= maxy: ...; y += w`
for positive `w`: one iteration per candidate `y ≤ maxy`. -/
def iterBound (y maxy w : ℝ) : ℕ :=
  if y ≤ maxy then (⌊(maxy - y) / w⌋).toNat + 1 else 0

/-- The sweep `while` loop of `generate_grass_cutting_waypoints`
(`src/app.py` lines 44-56), with an explicit iteration budget `fuel`
(the Python loop has none; `sweepLoop_stable` below shows any
`fuel ≥ iterBound` computes the loop's limit for `w > 0`).
`clipY y` stands for `line.intersection(polygon)` at height `y`,
flattened to a list of linestrings (`[]` when empty, several when the
result is a MultiLineString). -/
def sweepLoop (clipY : ℝ → List (List (ℝ × ℝ))) (maxy w : ℝ) :
    ℕ → ℝ → List (List (ℝ × ℝ))
  | 0, _ => []
  | fuel + 1, y =>
    if y ≤ maxy then clipY y ++ sweepLoop clipY maxy w fuel (y + w) else []

/-- The sequence of `y` values at which the sweep loop constructs a
candidate line (`src/app.py` lines 44-46): the loop visits
`y = miny, miny + w, …` while `y ≤ maxy`. -/
def candYs (maxy w : ℝ) : ℕ → ℝ → List ℝ
  | 0, _ => []
  | fuel + 1, y => if y ≤ maxy then y :: candYs maxy w fuel (y + w) else []

/-- Predicate `loopExits maxy w fuel y`: the sweep `while` loop started at `y`
exits (its guard `y ≤ maxy` fails) within `fuel` iterations. -/
def loopExits (maxy w : ℝ) : ℕ → ℝ → Prop
  | 0, _ => False
  | fuel + 1, y => ¬ y ≤ maxy ∨ loopExits maxy w fuel (y + w)

/-- Model of shapely's `LineString.intersection` for the sweep's
candidate lines against an axis-aligned closed rectangle
`[minx, maxx] × [miny, maxy]`: a full-width horizontal line at height
`y` inside the band meets the rectangle in the whole chord
`[(minx, y), (maxx, y)]` (boundary chords included), and misses it
otherwise. -/
def rectChord (minx miny maxx maxy y : ℝ) : List (List (ℝ × ℝ)) :=
  if miny ≤ y ∧ y ≤ maxy then [[(minx, y), (maxx, y)]] else []

/-- The two-argument (linestring, polygon) form of `rectChord`, usable
as the abstract `clip` parameter of the generators when the field is
the axis-aligned rectangle `[minx, maxx] × [miny, maxy]`. -/
def clipRectLS (minx miny maxx maxy : ℝ) :
    List (ℝ × ℝ) → List (ℝ × ℝ) → List (List (ℝ × ℝ)) :=
  fun ls _poly =>
    match ls with
    | p :: _ => rectChord minx miny maxx maxy p.2
    | [] => []

/-- Shapely `polygon.bounds` minimum x over the vertex list (nonempty in all
uses; `0` for the empty list). -/
def minX : List (ℝ × ℝ) → ℝ
  | [] => 0
  | p :: ps => ps.foldl (fun m q => min m q.1) p.1

/-- Shapely `polygon.bounds` minimum y. -/
def minY : List (ℝ × ℝ) → ℝ
  | [] => 0
  | p :: ps => ps.foldl (fun m q => min m q.2) p.2

/-- Shapely `polygon.bounds` maximum x. -/
def maxX : List (ℝ × ℝ) → ℝ
  | [] => 0
  | p :: ps => ps.foldl (fun m q => max m q.1) p.1

/-- Shapely `polygon.bounds` maximum y. -/
def maxY : List (ℝ × ℝ) → ℝ
  | [] => 0
  | p :: ps => ps.foldl (fun m q => max m q.2) p.2

/-- The sweep loop run from `miny` with its terminating iteration
budget. -/
def sweepTracks (clipY : ℝ → List (List (ℝ × ℝ))) (miny maxy w : ℝ) :
    List (List (ℝ × ℝ)) :=
  sweepLoop clipY maxy w (iterBound miny maxy w) miny

/-- Source `generate_grass_cutting_waypoints(boundary_latlon, mower_width)`
(`src/app.py` lines 30-63): convert the boundary to planar xy about
`boundary[0]`, sweep horizontal candidate lines across the bounding box
clipping each to the polygon (`clip` is the shapely intersection
kernel), and convert the resulting tracks back to lat/lon. -/
def generate_grass_cutting_waypoints
    (clip : List (ℝ × ℝ) → List (ℝ × ℝ) → List (List (ℝ × ℝ)))
    (boundary_latlon : List (ℝ × ℝ)) (mower_width : ℝ) :
    List (List (ℝ × ℝ)) :=
  let origin := boundary_latlon.headI
  let poly_xy := boundary_latlon.map (fun pt => latlon_to_xy pt origin)
  let minx := minX poly_xy
  let miny := minY poly_xy
  let maxx := maxX poly_xy
  let maxy := maxY poly_xy
  let lines := sweepTracks (fun y => clip [(minx, y), (maxx, y)] poly_xy)
    miny maxy mower_width
  lines.map (fun line => line.map (fun pt => xy_to_latlon pt origin))

/-- The interior sweep tracks of `generate_grass_cutting_waypoints` in
the planar frame: the `lines` local of `src/app.py` lines 43-56, before
the final per-point `xy_to_latlon` conversion. -/
def grass_tracks_xy
    (clip : List (ℝ × ℝ) → List (ℝ × ℝ) → List (List (ℝ × ℝ)))
    (boundary_latlon : List (ℝ × ℝ)) (mower_width : ℝ) :
    List (List (ℝ × ℝ)) :=
  let origin := boundary_latlon.headI
  let poly_xy := boundary_latlon.map (fun pt => latlon_to_xy pt origin)
  sweepTracks (fun y => clip [(minX poly_xy, y), (maxX poly_xy, y)] poly_xy)
    (minY poly_xy) (maxY poly_xy) mower_width

/-- Source `generate_striping_waypoints(boundary_latlon, mower_width, pattern)`
(`src/app.py` lines 65-151). `clip` is the shapely intersection kernel;
`po` is shapely's `LineString.parallel_offset(dist, 'right')`. The
Basic branch and the fall-through branch return
`generate_grass_cutting_waypoints`; Checkerboard adds a vertical sweep;
Diagonal sweeps 45° offsets. -/
def generate_striping_waypoints
    (clip : List (ℝ × ℝ) → List (ℝ × ℝ) → List (List (ℝ × ℝ)))
    (po : List (ℝ × ℝ) → ℝ → List (ℝ × ℝ))
    (boundary_latlon : List (ℝ × ℝ)) (mower_width : ℝ) (pattern : String) :
    List (List (ℝ × ℝ)) :=
  let origin := boundary_latlon.headI
  let poly_xy := boundary_latlon.map (fun pt => latlon_to_xy pt origin)
  let minx := minX poly_xy
  let miny := minY poly_xy
  let maxx := maxX poly_xy
  let maxy := maxY poly_xy
  if pattern = "Basic Stripe Pattern" then
    generate_grass_cutting_waypoints clip boundary_latlon mower_width
  else if pattern = "Checkerboard Stripe Pattern" then
    let horizontal_lines :=
      sweepTracks (fun y => clip [(minx, y), (maxx, y)] poly_xy)
        miny maxy mower_width
    let vertical_lines :=
      sweepTracks (fun x => clip [(x, miny), (x, maxy)] poly_xy)
        minx maxx mower_width
    (horizontal_lines ++ vertical_lines).map
      (fun line => line.map (fun pt => xy_to_latlon pt origin))
  else if pattern = "Diagonal Stripe Pattern" then
    let diag_length := Real.sqrt ((maxx - minx) ^ 2 + (maxy - miny) ^ 2)
    let spacing := mower_width / Real.sqrt 2
    let offsets :=
      candYs diag_length spacing
        (iterBound (-diag_length) diag_length spacing) (-diag_length)
    let diagonal_lines :=
      (offsets.map (fun offset =>
        clip (po [(minx, miny + offset), (minx + offset, miny)]
          (diag_length * 2)) poly_xy)).flatten
    diagonal_lines.map
      (fun line => line.map (fun pt => xy_to_latlon pt origin))
  else
    generate_grass_cutting_waypoints clip boundary_latlon mower_width

/-- Pitch length `lp = 105` (`src/app.py` line 171). -/
def lp : ℝ := 105

/-- Pitch width `wp = 68` (`src/app.py` line 172). -/
def wp : ℝ := 68

/-- Source `field_minx = center_x - lp/2` (`src/app.py` line 181). -/
def field_minx (center_x : ℝ) : ℝ := center_x - lp / 2

/-- Source `field_miny = center_y - wp/2` (`src/app.py` line 183). -/
def field_miny (center_y : ℝ) : ℝ := center_y - wp / 2

/-- Source `penalty_length = 40.32` (`src/app.py` line 214). -/
def penalty_length : ℝ := 40.32

/-- Source `penalty_width = 16.5` (`src/app.py` line 215). -/
def penalty_width : ℝ := 16.5

/-- The left penalty-area ring (`src/app.py` lines 218-224), in the
planar frame, before the per-point `xy_to_latlon` conversion. -/
def left_penalty (center_x center_y : ℝ) : List (ℝ × ℝ) :=
  [(field_minx center_x, center_y - penalty_width / 2),
   (field_minx center_x + penalty_length, center_y - penalty_width / 2),
   (field_minx center_x + penalty_length, center_y + penalty_width / 2),
   (field_minx center_x, center_y + penalty_width / 2),
   (field_minx center_x, center_y - penalty_width / 2)]

/-- Change of frame to the pitch's canonical frame: origin at the
corner `(field_minx, field_miny)`, x-axis along the length. -/
def toCanonical (center_x center_y : ℝ) (p : ℝ × ℝ) : ℝ × ℝ :=
  (p.1 - field_minx center_x, p.2 - field_miny center_y)

/-- One sample of the center circle (`src/app.py` lines 204-210):
`angle_deg = 5*k` for `k = 0, …, 72` (Python `range(0, 361, 5)`),
radius `9.15`, in the planar frame before `xy_to_latlon`. -/
def center_circle_pt (center_x center_y : ℝ) (k : ℕ) : ℝ × ℝ :=
  (center_x + 9.15 * Real.cos (radians (5 * k)),
   center_y + 9.15 * Real.sin (radians (5 * k)))

/-- The sampled center-circle polyline (73 points, 5° steps). -/
def center_circle (center_x center_y : ℝ) : List (ℝ × ℝ) :=
  (List.range 73).map (center_circle_pt center_x center_y)

/-- One sample of source `generate_arc(center, radius, start_angle, end_angle,
steps)` (`src/app.py` lines 242-249):
`angle = start_angle + (end_angle - start_angle) * i / steps`,
in the planar frame before the `xy_to_latlon` applied per point. -/
def arc_pt (center : ℝ × ℝ) (radius start_angle end_angle : ℝ)
    (steps i : ℕ) : ℝ × ℝ :=
  (center.1 + radius *
     Real.cos (radians (start_angle + (end_angle - start_angle) * i / steps)),
   center.2 + radius *
     Real.sin (radians (start_angle + (end_angle - start_angle) * i / steps)))

/-- Source `generate_arc` samples `i = 0, …, steps` with no filtering. -/
def generate_arc (center : ℝ × ℝ) (radius start_angle end_angle : ℝ)
    (steps : ℕ) : List (ℝ × ℝ) :=
  (List.range (steps + 1)).map (arc_pt center radius start_angle end_angle steps)

/-- Source `penalty_spot_dist = 11` (`src/app.py` line 238). -/
def penalty_spot_dist : ℝ := 11

/-- Source `left_penalty_spot = (field_minx + penalty_spot_dist, center_y)`
(`src/app.py` line 239). -/
def left_penalty_spot (center_x center_y : ℝ) : ℝ × ℝ :=
  (field_minx center_x + penalty_spot_dist, center_y)

/-- Source `left_arc = generate_arc(left_penalty_spot, 9.15, 310, 50)`
(`src/app.py` line 252), with the default `steps=20`. -/
def left_arc (center_x center_y : ℝ) : List (ℝ × ℝ) :=
  generate_arc (left_penalty_spot center_x center_y) 9.15 310 50 20

/-- Strict interior of the left penalty-area rectangle as the code
emits it (x between `field_minx` and `field_minx + penalty_length`,
y within `penalty_width/2` of `center_y`). -/
def insidePenaltyAreaLeft (center_x center_y : ℝ) (p : ℝ × ℝ) : Prop :=
  field_minx center_x < p.1 ∧ p.1 < field_minx center_x + penalty_length ∧
  center_y - penalty_width / 2 < p.2 ∧ p.2 < center_y + penalty_width / 2

/-- A path is closed when its last point returns to its first point. -/
def isClosedPath (p : List (ℝ × ℝ)) : Prop := p.head? = p.getLast?

end

/-- C8: for every origin `(lat0, lon0)` with `cos(radians lat0) ≠ 0`,
`xy_to_latlon` inverts `latlon_to_xy` and conversely, exactly in real
arithmetic. -/
theorem latlon_xy_roundtrip (origin p q : ℝ × ℝ)
    (h : Real.cos (radians origin.1) ≠ 0) :
    xy_to_latlon (latlon_to_xy p origin) origin = p ∧
    latlon_to_xy (xy_to_latlon q origin) origin = q := by
  have hR : (earthR : ℝ) ≠ 0 := by simp [earthR]
  constructor
  · simp only [latlon_to_xy, xy_to_latlon]
    refine Prod.ext ?_ ?_ <;> (field_simp; try ring)
  · simp only [latlon_to_xy, xy_to_latlon]
    refine Prod.ext ?_ ?_ <;> (field_simp; try ring)

/-- Witness for C8 at origin `(0,0)`, where `cos (radians 0) = 1 ≠ 0`. -/
theorem latlon_xy_roundtrip_witness :
    Real.cos (radians 0) ≠ 0 ∧
    (xy_to_latlon (latlon_to_xy (1, 2) (0, 0)) (0, 0) = (1, 2) ∧
     latlon_to_xy (xy_to_latlon (3, 4) (0, 0)) (0, 0) = (3, 4)) := by
  have h : Real.cos (radians 0) ≠ 0 := by
    simp [radians]
  exact ⟨h, latlon_xy_roundtrip (0, 0) (1, 2) (3, 4) h⟩

theorem iterBound_step (y maxy w : ℝ) (hw : 0 < w) (hy : y ≤ maxy) :
    iterBound y maxy w = iterBound (y + w) maxy w + 1 := by
  by_cases h2 : y + w ≤ maxy
  · have hfl : 1 ≤ ⌊(maxy - y) / w⌋ := by
      rw [Int.le_floor]
      rw [le_div_iff₀ hw]
      push_cast
      linarith
    have key : (maxy - (y + w)) / w = (maxy - y) / w - 1 := by
      field_simp
      ring
    simp only [iterBound, if_pos hy, if_pos h2, key, Int.floor_sub_one]
    omega
  · have key : ⌊(maxy - y) / w⌋ = 0 := by
      rw [Int.floor_eq_zero_iff]
      constructor
      · exact div_nonneg (by linarith) hw.le
      · rw [div_lt_one hw]; linarith
    simp only [iterBound, if_pos hy, if_neg h2, key]
    omega

theorem sweepLoop_stable (clipY : ℝ → List (List (ℝ × ℝ))) (maxy w : ℝ)
    (hw : 0 < w) :
    ∀ fuel (y : ℝ), iterBound y maxy w ≤ fuel →
      sweepLoop clipY maxy w fuel y =
        sweepLoop clipY maxy w (iterBound y maxy w) y := by
  intro fuel
  induction fuel with
  | zero =>
    intro y h
    rw [Nat.le_zero.mp h]
  | succ fuel IH =>
    intro y h
    by_cases hy : y ≤ maxy
    · have hstep := iterBound_step y maxy w hw hy
      rw [hstep]
      simp only [sweepLoop, if_pos hy]
      rw [IH (y + w) (by omega)]
    · have h0 : iterBound y maxy w = 0 := by simp [iterBound, hy]
      rw [h0]
      simp only [sweepLoop, if_neg hy]

theorem candYs_closed_form (maxy w : ℝ) (hw : 0 < w) :
    ∀ n (y : ℝ), iterBound y maxy w = n →
      candYs maxy w n y = (List.range n).map (fun k : ℕ => y + (k : ℝ) * w) := by
  intro n
  induction n with
  | zero => intro y _; simp [candYs]
  | succ n IH =>
    intro y h
    have hy : y ≤ maxy := by
      by_contra hy
      simp [iterBound, hy] at h
    have hstep : iterBound (y + w) maxy w = n := by
      have := iterBound_step y maxy w hw hy
      omega
    simp only [candYs, if_pos hy]
    rw [IH (y + w) hstep, List.range_succ_eq_map]
    simp only [List.map_cons, List.map_map]
    congr 1
    · push_cast
      ring
    · refine List.map_congr_left fun k _ => ?_
      simp only [Function.comp_apply]
      push_cast
      ring

theorem candY_le_maxy (y maxy w : ℝ) (hw : 0 < w) (k : ℕ)
    (hk : k < iterBound y maxy w) : y + k * w ≤ maxy := by
  have hy : y ≤ maxy := by
    by_contra hy
    simp [iterBound, hy] at hk
  have hfl : (k : ℤ) ≤ ⌊(maxy - y) / w⌋ := by
    have h0 : 0 ≤ ⌊(maxy - y) / w⌋ :=
      Int.floor_nonneg.mpr (div_nonneg (by linarith) hw.le)
    simp only [iterBound, if_pos hy] at hk
    omega
  have hr : (k : ℝ) ≤ (maxy - y) / w := by
    calc (k : ℝ) = ((k : ℤ) : ℝ) := by push_cast; ring
    _ ≤ ⌊(maxy - y) / w⌋ := by exact_mod_cast hfl
    _ ≤ (maxy - y) / w := Int.floor_le _
  rw [le_div_iff₀ hw] at hr
  linarith

theorem sweepLoop_rectChord (minx miny maxx maxy s : ℝ) (hs : 0 < s) :
    ∀ n (y : ℝ), miny ≤ y → iterBound y maxy s = n →
      sweepLoop (rectChord minx miny maxx maxy) maxy s n y =
        (List.range n).map (fun k : ℕ => [(minx, y + (k : ℝ) * s), (maxx, y + (k : ℝ) * s)]) := by
  intro n
  induction n with
  | zero => intro y _ _; simp [sweepLoop]
  | succ n IH =>
    intro y hmy h
    have hy : y ≤ maxy := by
      by_contra hy
      simp [iterBound, hy] at h
    have hstep : iterBound (y + s) maxy s = n := by
      have := iterBound_step y maxy s hs hy
      omega
    simp only [sweepLoop, if_pos hy, rectChord, if_pos (And.intro hmy hy)]
    rw [IH (y + s) (by linarith) hstep, List.range_succ_eq_map]
    simp only [List.map_cons, List.map_map, List.singleton_append]
    congr 1
    · push_cast
      ring_nf
    · refine List.map_congr_left fun k _ => ?_
      simp only [Function.comp_apply]
      push_cast
      ring_nf

/-- C10: for positive width the sweep loop terminates: running it with
any iteration budget of at least `iterBound miny maxy w` gives the same
tracks as running exactly `iterBound miny maxy w` iterations, and that
count is at most `⌊(maxy - miny)/width⌋ + 1`. -/
theorem sweep_loop_terminates (clipY : ℝ → List (List (ℝ × ℝ)))
    (miny maxy w : ℝ) (fuel : ℕ) (hw : 0 < w)
    (hfuel : iterBound miny maxy w ≤ fuel) :
    sweepLoop clipY maxy w fuel miny =
      sweepLoop clipY maxy w (iterBound miny maxy w) miny ∧
    iterBound miny maxy w ≤ (⌊(maxy - miny) / w⌋).toNat + 1 := by
  refine ⟨sweepLoop_stable clipY maxy w hw fuel miny hfuel, ?_⟩
  unfold iterBound
  split <;> omega

/-- Witness for C10 at `miny = maxy = 0`, `w = 1`, `fuel = 5`. -/
theorem sweep_loop_terminates_witness :
    (0 : ℝ) < 1 ∧ iterBound 0 0 1 ≤ 5 ∧
    (sweepLoop (fun _ => [[((0 : ℝ), (0 : ℝ)), (1, 0)]]) 0 1 5 0 =
       sweepLoop (fun _ => [[((0 : ℝ), (0 : ℝ)), (1, 0)]]) 0 1 (iterBound 0 0 1) 0 ∧
     iterBound 0 0 1 ≤ (⌊((0 : ℝ) - 0) / 1⌋).toNat + 1) := by
  have h1 : (0 : ℝ) < 1 := zero_lt_one
  have h2 : iterBound 0 0 1 ≤ 5 := by simp [iterBound]
  exact ⟨h1, h2,
    sweep_loop_terminates (fun _ => [[((0 : ℝ), (0 : ℝ)), (1, 0)]]) 0 0 1 5 h1 h2⟩

/-- C2 (code bug): with width `w ≤ 0` the sweep loop never exits: no
iteration budget suffices, because `y` never moves past `maxy`. The
code performs no validation of the width and raises no error. -/
theorem sweep_loop_diverges_nonpos_width (maxy w : ℝ) (hw : w ≤ 0) :
    ∀ fuel (y : ℝ), y ≤ maxy → ¬ loopExits maxy w fuel y := by
  intro fuel
  induction fuel with
  | zero => intro y _ h; simp [loopExits] at h
  | succ fuel IH =>
    intro y hy h
    simp only [loopExits] at h
    rcases h with h | h
    · exact h hy
    · exact IH (y + w) (by linarith) h

/-- Witness for C2 at `w = 0`, `y = maxy = 0`, `fuel = 7`. -/
theorem sweep_loop_diverges_witness :
    (0 : ℝ) ≤ 0 ∧ (0 : ℝ) ≤ 0 ∧ ¬ loopExits 0 0 7 0 :=
  ⟨le_refl 0, le_refl 0,
   sweep_loop_diverges_nonpos_width 0 0 (le_refl 0) 7 0 (le_refl 0)⟩

/-- C1 counterexample: on the band `[0, 100]` with spacing `10` the
first candidate line sits at `y = miny = 0`, not at
`y = miny + spacing/2 = 5`: the first track coincides with the
bounding-box edge. -/
theorem first_candidate_on_box_edge :
    (candYs 100 10 (iterBound 0 100 10) 0).head? = some 0 ∧
    (0 : ℝ) ≠ 0 + 10 / 2 := by
  constructor
  · have h : iterBound 0 100 10 = 11 := by
      norm_num [iterBound]
      decide
    rw [h, show (11 : ℕ) = 10 + 1 from rfl]
    simp only [candYs]
    rw [if_pos (show (0 : ℝ) ≤ 100 by norm_num)]
    rfl
  · norm_num

/-- C1 amended: the sweep loop places its candidate lines at
`y = miny, miny + w, miny + 2w, …` while the value stays `≤ maxy`
(no half-spacing offset: the first candidate lies on the bounding-box
edge `y = miny`). -/
theorem candidate_lines_at_miny_steps (miny maxy w : ℝ) (hw : 0 < w) :
    candYs maxy w (iterBound miny maxy w) miny =
      (List.range (iterBound miny maxy w)).map (fun k : ℕ => miny + (k : ℝ) * w) ∧
    ∀ k : ℕ, k < iterBound miny maxy w → miny + k * w ≤ maxy := by
  exact ⟨candYs_closed_form maxy w hw _ miny rfl,
    fun k hk => candY_le_maxy miny maxy w hw k hk⟩

/-- Witness for the amended C1 at `miny = 0`, `maxy = 2`, `w = 1`. -/
theorem candidate_lines_witness :
    (0 : ℝ) < 1 ∧
    (candYs 2 1 (iterBound 0 2 1) 0 =
       (List.range (iterBound 0 2 1)).map (fun k : ℕ => (0 : ℝ) + (k : ℝ) * 1) ∧
     ∀ k : ℕ, k < iterBound 0 2 1 → (0 : ℝ) + k * 1 ≤ 2) :=
  ⟨zero_lt_one, candidate_lines_at_miny_steps 0 2 1 zero_lt_one⟩

/-- C4 counterexample: on the unit square (`W = H = 1`) with spacing
`s = 1` the sweep produces 2 tracks (at `y = 0` and `y = 1`), not
`⌊H/s⌋ = 1` track. -/
theorem rect_track_count_counterexample :
    (sweepTracks (rectChord 0 0 1 1) 0 1 1).length = 2 ∧
    (⌊((1 : ℝ) - 0) / 1⌋).toNat = 1 := by
  constructor
  · rw [sweepTracks,
      sweepLoop_rectChord 0 0 1 1 1 zero_lt_one (iterBound 0 1 1) 0 (le_refl 0) rfl]
    simp only [List.length_map, List.length_range]
    norm_num [iterBound]
  · norm_num

/-- C4 amended: on the axis-aligned rectangle
`[minx, maxx] × [miny, maxy]` with spacing `s > 0`, the sweep produces
exactly `⌊(maxy - miny)/s⌋ + 1` tracks, each the full-width horizontal
chord `[(minx, y), (maxx, y)]` (hence of length `maxx - minx = W` and
parallel to the x-axis). -/
theorem rect_track_count (minx miny maxx maxy s : ℝ) (hs : 0 < s)
    (h : miny ≤ maxy) :
    (sweepTracks (rectChord minx miny maxx maxy) miny maxy s).length =
      (⌊(maxy - miny) / s⌋).toNat + 1 ∧
    ∀ p ∈ sweepTracks (rectChord minx miny maxx maxy) miny maxy s,
      ∃ y, miny ≤ y ∧ y ≤ maxy ∧ p = [(minx, y), (maxx, y)] := by
  rw [sweepTracks,
    sweepLoop_rectChord minx miny maxx maxy s hs (iterBound miny maxy s) miny
      (le_refl miny) rfl]
  constructor
  · simp only [List.length_map, List.length_range, iterBound, if_pos h]
  · intro p hp
    obtain ⟨k, hk, rfl⟩ := List.mem_map.mp hp
    rw [List.mem_range] at hk
    refine ⟨miny + k * s, ?_, ?_, rfl⟩
    · have : (0 : ℝ) ≤ k * s := by positivity
      linarith
    · exact candY_le_maxy miny maxy s hs k hk

/-- Witness for the amended C4 on `[0, 2] × [0, 1]` with `s = 1`. -/
theorem rect_track_count_witness :
    (0 : ℝ) < 1 ∧ (0 : ℝ) ≤ 1 ∧
    ((sweepTracks (rectChord 0 0 2 1) 0 1 1).length =
       (⌊((1 : ℝ) - 0) / 1⌋).toNat + 1 ∧
     ∀ p ∈ sweepTracks (rectChord 0 0 2 1) 0 1 1,
       ∃ y, (0 : ℝ) ≤ y ∧ y ≤ 1 ∧ p = [((0 : ℝ), y), (2, y)]) :=
  ⟨zero_lt_one, zero_le_one, rect_track_count 0 0 2 1 1 zero_lt_one zero_le_one⟩

/-- C5 (evaluation of the code at the regulation pitch): in the pitch's
canonical frame the emitted left penalty area is the closed rectangle
`[(0, 25.75), (40.32, 25.75), (40.32, 42.25), (0, 42.25)]` — it extends
`40.32` m from the goal line along the length and only `16.5` m across
the width — which differs from the claimed regulation rectangle
`[(0, 13.85), (16.5, 13.85), (16.5, 54.15), (0, 54.15)]`: the code
swaps the penalty area's depth and breadth. -/
theorem left_penalty_emitted (cx cy : ℝ) :
    (left_penalty cx cy).map (toCanonical cx cy) =
      [(0, 25.75), (40.32, 25.75), (40.32, 42.25), (0, 42.25), (0, 25.75)] ∧
    ([((0 : ℝ), (25.75 : ℝ)), (40.32, 25.75), (40.32, 42.25), (0, 42.25),
        (0, 25.75)] : List (ℝ × ℝ)) ≠
      [(0, 13.85), (16.5, 13.85), (16.5, 54.15), (0, 54.15), (0, 13.85)] := by
  constructor
  · simp only [left_penalty, toCanonical, field_minx, field_miny, lp, wp,
      penalty_length, penalty_width, List.map_cons, List.map_nil,
      List.cons.injEq, Prod.mk.injEq, and_true]
    norm_num
  · simp only [ne_eq, List.cons.injEq, Prod.mk.injEq]
    norm_num

theorem arc_pt_ten (cx cy : ℝ) :
    arc_pt (left_penalty_spot cx cy) 9.15 310 50 20 10 =
      (field_minx cx + 1.85, cy) := by
  have hang : (310 : ℝ) + (50 - 310) * ((10 : ℕ) : ℝ) / ((20 : ℕ) : ℝ) = 180 := by
    push_cast
    norm_num
  have hrad : radians 180 = Real.pi := by
    simp only [radians]
    rw [mul_comm, mul_div_assoc]
    norm_num
  simp only [arc_pt, left_penalty_spot, hang, hrad, Real.cos_pi, Real.sin_pi,
    penalty_spot_dist]
  refine Prod.ext ?_ ?_
  · ring_nf
  · ring_nf

/-- C6 counterexample: the 10th sample of the left penalty arc (angle
`310 + (50-310)·10/20 = 180°`, i.e. the point
`(field_minx + 11 - 9.15, center_y)`) is emitted in the arc polyline
and lies strictly inside the emitted left penalty-area rectangle: the
code applies no clipping at all. -/
theorem penalty_arc_point_inside_area :
    arc_pt (left_penalty_spot 0 34) 9.15 310 50 20 10 ∈ left_arc 0 34 ∧
    insidePenaltyAreaLeft 0 34
      (arc_pt (left_penalty_spot 0 34) 9.15 310 50 20 10) := by
  refine ⟨?_, ?_⟩
  · simp only [left_arc, generate_arc, List.mem_map]
    exact ⟨10, by simp, rfl⟩
  · rw [arc_pt_ten]
    simp only [insidePenaltyAreaLeft, field_minx, penalty_length,
      penalty_width, lp]
    norm_num

/-- C6 amended: the penalty-arc generator emits every one of its 21
sampled points unconditionally — there is no clipping against the
penalty area — and emitted arc points can lie strictly inside the
penalty-area rectangle (the 10th sample always does). -/
theorem penalty_arc_unclipped (cx cy : ℝ) :
    (left_arc cx cy).length = 21 ∧
    arc_pt (left_penalty_spot cx cy) 9.15 310 50 20 10 ∈ left_arc cx cy ∧
    insidePenaltyAreaLeft cx cy
      (arc_pt (left_penalty_spot cx cy) 9.15 310 50 20 10) := by
  refine ⟨?_, ?_, ?_⟩
  · simp [left_arc, generate_arc]
  · simp only [left_arc, generate_arc, List.mem_map]
    exact ⟨10, by simp, rfl⟩
  · rw [arc_pt_ten]
    simp only [insidePenaltyAreaLeft, field_minx, penalty_length,
      penalty_width, lp]
    refine ⟨by linarith, by linarith, by linarith, by linarith⟩

/-- C7: every sample point of the center-circle polyline about the
canonical pitch center `(52.5, 34)` lies at distance `9.15` m (within
`1e-6`) from that center (exactly, in real arithmetic). -/
theorem center_circle_radius (p : ℝ × ℝ) (hp : p ∈ center_circle 52.5 34) :
    |Real.sqrt ((p.1 - 52.5) ^ 2 + (p.2 - 34) ^ 2) - 9.15| ≤ 1e-6 := by
  obtain ⟨k, -, rfl⟩ := List.mem_map.mp hp
  simp only [center_circle_pt]
  have hsum : (52.5 + 9.15 * Real.cos (radians (5 * k)) - 52.5) ^ 2 +
      (34 + 9.15 * Real.sin (radians (5 * k)) - 34) ^ 2 = (9.15 : ℝ) ^ 2 := by
    have h := Real.sin_sq_add_cos_sq (radians (5 * k))
    nlinarith [h]
  rw [hsum, Real.sqrt_sq (by norm_num : (0 : ℝ) ≤ 9.15)]
  norm_num

/-- Witness for C7 at the first sample (`k = 0`). -/
theorem center_circle_radius_witness :
    center_circle_pt 52.5 34 0 ∈ center_circle 52.5 34 ∧
    |Real.sqrt (((center_circle_pt 52.5 34 0).1 - 52.5) ^ 2 +
        ((center_circle_pt 52.5 34 0).2 - 34) ^ 2) - 9.15| ≤ 1e-6 := by
  have hmem : center_circle_pt 52.5 34 0 ∈ center_circle 52.5 34 := by
    simp only [center_circle, List.mem_map]
    exact ⟨0, by simp, rfl⟩
  exact ⟨hmem, center_circle_radius _ hmem⟩

/-- C9: the striping generator with the Basic pattern — or with any
pattern string other than the three recognized names — returns exactly
the grass-cutting generator's waypoints for the same boundary and
width, for every shapely kernel (`clip`, `po`). -/
theorem striping_basic_eq_grass_cutting
    (clip : List (ℝ × ℝ) → List (ℝ × ℝ) → List (List (ℝ × ℝ)))
    (po : List (ℝ × ℝ) → ℝ → List (ℝ × ℝ))
    (boundary_latlon : List (ℝ × ℝ)) (mower_width : ℝ) (pattern : String)
    (h : pattern = "Basic Stripe Pattern" ∨
      (pattern ≠ "Basic Stripe Pattern" ∧
       pattern ≠ "Checkerboard Stripe Pattern" ∧
       pattern ≠ "Diagonal Stripe Pattern")) :
    generate_striping_waypoints clip po boundary_latlon mower_width pattern =
      generate_grass_cutting_waypoints clip boundary_latlon mower_width := by
  rcases h with h | ⟨h1, h2, h3⟩
  · simp [generate_striping_waypoints, h]
  · simp [generate_striping_waypoints, h1, h2, h3]

/-- Witness for C9 with the Basic pattern on a concrete call. -/
theorem striping_basic_witness :
    ("Basic Stripe Pattern" = "Basic Stripe Pattern" ∨
      ("Basic Stripe Pattern" ≠ "Basic Stripe Pattern" ∧
       "Basic Stripe Pattern" ≠ "Checkerboard Stripe Pattern" ∧
       "Basic Stripe Pattern" ≠ "Diagonal Stripe Pattern")) ∧
    generate_striping_waypoints (fun _ _ => []) (fun ls _ => ls)
        [((0 : ℝ), (0 : ℝ))] 1 "Basic Stripe Pattern" =
      generate_grass_cutting_waypoints (fun _ _ => []) [((0 : ℝ), (0 : ℝ))] 1 :=
  ⟨Or.inl rfl,
   striping_basic_eq_grass_cutting (fun _ _ => []) (fun ls _ => ls)
     [((0 : ℝ), (0 : ℝ))] 1 "Basic Stripe Pattern" (Or.inl rfl)⟩

theorem grass_plan_square :
    generate_grass_cutting_waypoints (clipRectLS 0 0 6371000 6371000)
      [((0 : ℝ), (0 : ℝ)), (0, 1), (1, 1), (1, 0)] (6371000 / 4) =
    [[((0 : ℝ), (0 : ℝ)), (0, 1)], [(1/4, 0), (1/4, 1)], [(1/2, 0), (1/2, 1)],
     [(3/4, 0), (3/4, 1)], [(1, 0), (1, 1)]] := by
  have hcos : Real.cos (radians 0) = 1 := by simp [radians]
  have hPX : List.map (fun pt => latlon_to_xy pt ((0 : ℝ), (0 : ℝ)))
      [((0 : ℝ), (0 : ℝ)), (0, 1), (1, 1), (1, 0)] =
      [((0 : ℝ), (0 : ℝ)), (6371000, 0), (6371000, 6371000), (0, 6371000)] := by
    simp only [List.map_cons, List.map_nil, latlon_to_xy, hcos, earthR]
    norm_num
  simp only [generate_grass_cutting_waypoints, List.headI, hPX]
  have hminX : minX [((0 : ℝ), (0 : ℝ)), (6371000, 0), (6371000, 6371000),
      (0, 6371000)] = 0 := by
    simp only [minX, List.foldl]
    norm_num [min_def]
  have hminY : minY [((0 : ℝ), (0 : ℝ)), (6371000, 0), (6371000, 6371000),
      (0, 6371000)] = 0 := by
    simp only [minY, List.foldl]
    norm_num [min_def]
  have hmaxX : maxX [((0 : ℝ), (0 : ℝ)), (6371000, 0), (6371000, 6371000),
      (0, 6371000)] = 6371000 := by
    simp only [maxX, List.foldl]
    norm_num [max_def]
  have hmaxY : maxY [((0 : ℝ), (0 : ℝ)), (6371000, 0), (6371000, 6371000),
      (0, 6371000)] = 6371000 := by
    simp only [maxY, List.foldl]
    norm_num [max_def]
  rw [hminX, hminY, hmaxX, hmaxY]
  have hib : iterBound 0 6371000 (6371000 / 4) = 5 := by
    norm_num [iterBound]
    decide
  have hclip : (fun y => clipRectLS 0 0 6371000 6371000
      [((0 : ℝ), y), ((6371000 : ℝ), y)]
      [((0 : ℝ), (0 : ℝ)), (6371000, 0), (6371000, 6371000), (0, 6371000)]) =
      fun y => rectChord 0 0 6371000 6371000 y := rfl
  rw [sweepTracks, hclip, hib,
    sweepLoop_rectChord 0 0 6371000 6371000 (6371000 / 4) (by norm_num) 5 0
      (le_refl 0) hib]
  have hrange : List.range 5 = [0, 1, 2, 3, 4] := by decide
  rw [hrange]
  simp only [List.map_cons, List.map_nil, xy_to_latlon, hcos, earthR,
    List.cons.injEq, Prod.mk.injEq]
  norm_num

/-- C3 counterexample: on the unit-degree square field with mower width
`6371000/4` m (a quarter of the planar square's side, so an inward
headland ring at that width plainly exists), the coverage plan's first
path is an open sweep chord, not a closed headland ring: the plan of
`generate_grass_cutting_waypoints` never starts with closed
headland-ring paths. -/
theorem coverage_plan_has_no_closed_ring :
    ¬ isClosedPath ((generate_grass_cutting_waypoints
        (clipRectLS 0 0 6371000 6371000)
        [((0 : ℝ), (0 : ℝ)), (0, 1), (1, 1), (1, 0)] (6371000 / 4)).headI) := by
  rw [grass_plan_square]
  simp only [isClosedPath, List.headI, List.head?_cons, List.getLast?]
  intro h
  have h2 := Option.some.inj h
  rw [Prod.ext_iff] at h2
  norm_num at h2

theorem xy_to_latlon_inj (origin : ℝ × ℝ)
    (h : Real.cos (radians origin.1) ≠ 0) :
    Function.Injective (fun pt => xy_to_latlon pt origin) := by
  intro p q hpq
  have hR : (earthR : ℝ) ≠ 0 := by simp [earthR]
  simp only [xy_to_latlon, Prod.mk.injEq] at hpq
  obtain ⟨h1, h2⟩ := hpq
  refine Prod.ext ?_ ?_
  · field_simp at h2
    exact h2
  · field_simp at h1
    exact h1

theorem sweepLoop_mem_clip (clipY : ℝ → List (List (ℝ × ℝ))) (maxy w : ℝ) :
    ∀ fuel (y : ℝ) line, line ∈ sweepLoop clipY maxy w fuel y →
      ∃ z, line ∈ clipY z := by
  intro fuel
  induction fuel with
  | zero => intro y line h; simp [sweepLoop] at h
  | succ fuel IH =>
    intro y line h
    by_cases hy : y ≤ maxy
    · simp only [sweepLoop, if_pos hy, List.mem_append] at h
      rcases h with h | h
      · exact ⟨y, h⟩
      · exact IH (y + w) line h
    · simp only [sweepLoop, if_neg hy, List.not_mem_nil] at h

/-- C3 amended: for every clipping kernel whose line-polygon
intersection results are open paths (first point distinct from last
point, as line∩polygon chords are), every boundary whose origin
latitude has `cos (radians lat0) ≠ 0` (so the planar conversion is
injective), and every width, the coverage plan is exactly the interior
sweep tracks converted back to lat/lon, in sweep order — no
headland-ring paths precede them (the generator takes no headland-pass
count) — and no emitted path is closed (last point equal to first
point). -/
theorem coverage_plan_sweep_tracks_only
    (clip : List (ℝ × ℝ) → List (ℝ × ℝ) → List (List (ℝ × ℝ)))
    (boundary_latlon : List (ℝ × ℝ)) (mower_width : ℝ)
    (hcos : Real.cos (radians boundary_latlon.headI.1) ≠ 0)
    (hclip : ∀ ls poly line, line ∈ clip ls poly →
      line.head? ≠ line.getLast?) :
    generate_grass_cutting_waypoints clip boundary_latlon mower_width =
      (grass_tracks_xy clip boundary_latlon mower_width).map
        (fun line => line.map (fun pt => xy_to_latlon pt boundary_latlon.headI)) ∧
    ∀ p ∈ generate_grass_cutting_waypoints clip boundary_latlon mower_width,
      ¬ isClosedPath p := by
  refine ⟨rfl, ?_⟩
  intro p hp
  have hp' : p ∈ (grass_tracks_xy clip boundary_latlon mower_width).map
      (fun line => line.map (fun pt => xy_to_latlon pt boundary_latlon.headI)) :=
    hp
  obtain ⟨line, hline, rfl⟩ := List.mem_map.mp hp'
  obtain ⟨z, hz⟩ := sweepLoop_mem_clip _ _ _ _ _ line hline
  have hne := hclip _ _ line hz
  intro hcl
  rw [isClosedPath, List.head?_map, List.getLast?_map] at hcl
  exact hne (Option.map_injective (xy_to_latlon_inj _ hcos) hcl)

/-- Witness for the amended C3 on a concrete call (single-point
boundary, empty clip kernel). -/
theorem coverage_plan_sweep_tracks_only_witness :
    Real.cos (radians ([((0 : ℝ), (0 : ℝ))] : List (ℝ × ℝ)).headI.1) ≠ 0 ∧
    (∀ (ls poly : List (ℝ × ℝ)) (line : List (ℝ × ℝ)),
      line ∈ (fun (_ _ : List (ℝ × ℝ)) => ([] : List (List (ℝ × ℝ)))) ls poly →
        line.head? ≠ line.getLast?) ∧
    (generate_grass_cutting_waypoints (fun _ _ => []) [((0 : ℝ), (0 : ℝ))] 1 =
       (grass_tracks_xy (fun _ _ => []) [((0 : ℝ), (0 : ℝ))] 1).map
         (fun line => line.map
           (fun pt => xy_to_latlon pt ([((0 : ℝ), (0 : ℝ))] : List (ℝ × ℝ)).headI)) ∧
     ∀ p ∈ generate_grass_cutting_waypoints (fun _ _ => [])
         [((0 : ℝ), (0 : ℝ))] 1, ¬ isClosedPath p) := by
  have hcos : Real.cos (radians ([((0 : ℝ), (0 : ℝ))] : List (ℝ × ℝ)).headI.1) ≠ 0 := by
    simp [radians]
  have hclip : ∀ (ls poly : List (ℝ × ℝ)) (line : List (ℝ × ℝ)),
      line ∈ (fun (_ _ : List (ℝ × ℝ)) => ([] : List (List (ℝ × ℝ)))) ls poly →
        line.head? ≠ line.getLast? :=
    fun _ _ line h => absurd h (List.not_mem_nil line)
  exact ⟨hcos, hclip,
    coverage_plan_sweep_tracks_only (fun _ _ => []) [((0 : ℝ), (0 : ℝ))] 1
      hcos hclip⟩

end SoccerApp
